import Mathlib

/-!
Shallow embedding of the sber-test-work acquisition pipeline
(src/src/main.py, src/src/downloaders.py, src/src/handlers.py,
src/src/robotparser.py).

Network and filesystem behaviour is abstracted into a deterministic
`World` of oracle functions (one HTTP GET result per URL, one robots.txt
result per origin, one parse result per raw file path); everything the
Python code itself does — state updates on the shared downloader and
handler instances, the robots cache, string manipulation on statuses,
paths and query strings — is translated operation for operation.
Side effects (network requests, file writes) are recorded in an explicit
effect list.  Statuses are kept as plain strings, exactly as the source
passes them between stages.
-/

set_option maxRecDepth 4096

namespace SberPipeline

/-- A URL, already split the way `urllib.parse.urlparse` splits it:
scheme, netloc and the remainder (path plus query), which the fetch
pipeline never inspects. -/
structure Url where
  scheme : String
  netloc : String
  rest : String
deriving DecidableEq, Repr

/-- The `f"{parsed_url.scheme}://{parsed_url.netloc}"` key used by
`robotparser.can_fetch` for its cache. -/
def Url.origin (u : Url) : String := u.scheme ++ "://" ++ u.netloc

/-- The full URL string (used only for the file-name fallback
`url.split("/")[-1]`). -/
def Url.toString (u : Url) : String := u.origin ++ u.rest

/-- A parsed robots.txt policy: the `RobotFileParser` object after a
successful `read()`, abstracted to its `can_fetch(url, useragent)`
decision function. -/
structure RobotsParser where
  rule : Url → String → Bool

/-- Outcome of fetching the robots.txt of an origin (`RobotFileParser.read`):
either a parsed policy or a `URLError`. -/
inductive RobotsFetchResult where
  | ok (p : RobotsParser)
  | err

/-- The module-level `_robots_cache` dict: origin string to the stored
`RobotFileParser | None` (a stored `None` records a failed fetch). -/
def RobotsCache := List (String × Option RobotsParser)

/-- Python `dict.get`: `none` when the key is missing. -/
def rcGet (c : RobotsCache) (k : String) : Option (Option RobotsParser) :=
  match c with
  | [] => none
  | (k', v) :: rest => if k' = k then some v else rcGet rest k

/-- Python dict assignment; a later binding shadows an earlier one. -/
def rcSet (c : RobotsCache) (k : String) (v : Option RobotsParser) : RobotsCache :=
  (k, v) :: c

/-- HTTP GET behaviour of the network for one URL, as observed through
`requests.get` + `raise_for_status`: either the final (post-redirect)
URL, the optional `Content-Length` header and the body bytes, or a
raised transport/status exception with its message. -/
inductive ContentResult where
  | ok (finalUrl : String) (contentLength : Option Nat) (content : List Nat)
  | err (msg : String)

/-- Behaviour of `requests.head` for one URL: a `RequestException`, or the
optional `Content-Type` header value of the (redirect-followed)
response. -/
inductive ProbeResult where
  | err
  | ok (contentType : Option String)

/-- Result of parsing one raw artifact (the pypdf / python-docx /
openpyxl / BeautifulSoup + langdetect work inside `_handle`): the values
the handler reads off the document, or a raised parse error. -/
inductive ExtractResult where
  | ok (pageCount : Nat) (author : Option String) (creationDate : Option String)
      (language : String) (text : String)
  | err (msg : String)

/-- Exceptions that escape to the top level in the source. -/
inductive PyError where
  | valueError
  | attributeError
deriving DecidableEq, Repr

/-- The deterministic external world of one run: robots.txt per origin,
GET per URL, HEAD probe per URL, the two `mimetypes` tables, and the
parse outcome per raw file path. -/
structure World where
  robots : String → RobotsFetchResult
  content : Url → ContentResult
  probe : Url → ProbeResult
  guessType : Url → Option String
  guessExt : String → Option String
  extract : String → ExtractResult

/-- Observable side effects of a run. -/
inductive Effect where
  | robotsFetch (origin : String)
  | contentFetch (u : Url)
  | fileWrite (path : String) (content : List Nat)
  | textWrite (path : String)
  | extractRead (path : String)
deriving DecidableEq, Repr

/-- Models `robotparser.can_fetch(url, user_agent)` from src/src/robotparser.py,
threading the module cache.  Returns the decision, the updated cache and
whether a robots.txt network fetch was issued.  Note the source guard is
`if not ...:` on the looked-up value, so a cached `None` (recorded after a failed
fetch) is indistinguishable from a missing entry — `dict.get` returns
`None` in both cases — which is mirrored by the `Option.join`. -/
def can_fetch (w : World) (cache : RobotsCache) (u : Url) (agent : String) :
    Bool × RobotsCache × Bool :=
  let sitemap := u.origin
  let robotParser : Option RobotsParser := (rcGet cache sitemap).join
  match robotParser with
  | some p => (p.rule u agent, cache, false)
  | none =>
    match w.robots sitemap with
    | .ok p => (p.rule u agent, rcSet cache sitemap (some p), true)
    | .err => (true, rcSet cache sitemap none, true)

/-- The default user agent of `ContentDownloader.__init__`. -/
def DEFAULT_USER_AGENT : String :=
  "Mozilla/5.0 (Windows NT 10.0; Win64; x64) AppleWebKit/537.36 (KHTML, like Gecko) Chrome/114.0.5735.199 Safari/537.36"

def DOCUMENT_RAW_FOLDER : String := "raw_downloads/documents/"
def PAGE_RAW_FOLDER : String := "raw_downloads/pages/"
def DOCUMENT_PROCESSED_FOLDER : String := "processed_data/documents/"
def PAGE_PROCESSED_FOLDER : String := "processed_data/pages/"

/-- The mutable instance fields of `ContentDownloader`. -/
structure DownloaderState where
  user_agent : String
  dest_folder : String
  url : String
  download_status : String
  error_message : String
  file_path : String
  file_size_bytes : Nat
deriving DecidableEq, Repr

/-- Models `ContentDownloader.__init__(dest_folder=...)`. -/
def ContentDownloader.init (dest_folder : String) : DownloaderState :=
  { user_agent := DEFAULT_USER_AGENT
    dest_folder := dest_folder
    url := ""
    download_status := "success"
    error_message := ""
    file_path := ""
    file_size_bytes := 0 }

/-- Splitting a list on a separator character, the way Python
`str.split(sep)` splits for a one-character separator (so that list
indexing like `[-1]` and `[0]` from the source can be replayed). -/
def splitOnCharL (sep : Char) : List Char → List (List Char)
  | [] => [[]]
  | c :: rest =>
    if c = sep then [] :: splitOnCharL sep rest
    else
      match splitOnCharL sep rest with
      | [] => [[c]]
      | x :: xs => (c :: x) :: xs

/-- Python `s.split(sep)` on strings. -/
def pySplit (sep : Char) (s : String) : List String :=
  (splitOnCharL sep s.data).map String.mk

/-- The expression `url.split("/")[-1]` — the file-name fallback of
`ContentDownloader.download`. -/
def lastUrlComponent (url : String) : String :=
  (pySplit '/' url).getLastD ""

/-- The outcome of one `ContentDownloader.download` call: the mutated
downloader instance, the robots cache, and the side effects. -/
structure DownloadResult where
  st : DownloaderState
  cache : RobotsCache
  effects : List Effect

/-- Models `ContentDownloader.download(url, file_name=...)` from
src/src/downloaders.py, for the two `requests`-based variants (whose
`_download` bodies are identical: GET, `raise_for_status`, record
`request.url` and the `Content-Length` header with default `0`, write
`request.content`).

Faithful details: the robots check does not return on denial — it only
sets `download_status = "skipped_robots"` and execution falls through to
`_download`; on an exception inside `_download` the status is
overwritten with `"failed_download"`; `self.file_path` is assigned after
the try/except on every non-raising path.  The empty-file-name
`ValueError` propagates to the caller (the status mutation made just
before the raise is dropped together with the run). -/
def ContentDownloader.download (w : World) (st : DownloaderState) (cache : RobotsCache)
    (u : Url) (file_name? : Option String) : Except PyError DownloadResult :=
  let file_name :=
    match file_name? with
    | some f => if f = "" then lastUrlComponent u.toString else f
    | none => lastUrlComponent u.toString
  if file_name = "" then .error .valueError
  else
    let (allowed, cache, robotsFetched) := can_fetch w cache u st.user_agent
    let robotsEffs : List Effect := if robotsFetched then [.robotsFetch u.origin] else []
    let st := if allowed then st else { st with download_status := "skipped_robots" }
    let file_path := st.dest_folder ++ file_name
    let (st, effs) :=
      match w.content u with
      | .ok finalUrl contentLength content =>
        ({ st with url := finalUrl, file_size_bytes := contentLength.getD 0 },
         [Effect.contentFetch u, Effect.fileWrite file_path content])
      | .err msg =>
        ({ st with download_status := "failed_download", error_message := msg },
         [Effect.contentFetch u])
    let st := { st with file_path := file_path }
    .ok { st := st, cache := cache, effects := robotsEffs ++ effs }

/-- Python `str.strip()` restricted to ASCII whitespace. -/
def isPySpace (c : Char) : Bool :=
  c = ' ' || c = '\t' || c = '\n' || c = '\r'

def trimL (l : List Char) : List Char :=
  ((l.dropWhile isPySpace).reverse.dropWhile isPySpace).reverse

/-- The expression `content_type.split(";")[0].strip().lower()` from `get_content_type`. -/
def normalizeContentType (ct : String) : String :=
  String.mk ((trimL ((splitOnCharL ';' ct.data).headD [])).map Char.toLower)

/-- Models `get_content_type(url)` from src/src/main.py.  A `RequestException`
during the HEAD probe is swallowed (falls through to `return "", ""`).
If the `Content-Type` header is missing or empty, the type is guessed
from the URL; when that also yields `None`, the source calls
`mimetypes.guess_extension(None)`, which raises `AttributeError`
(`NoneType` has no attribute `lower`). -/
def get_content_type (w : World) (u : Url) : Except PyError (String × String) :=
  match w.probe u with
  | .err => .ok ("", "")
  | .ok header =>
    let content_type : Option String :=
      match header with
      | none => w.guessType u
      | some ct => if ct = "" then w.guessType u else some (normalizeContentType ct)
    match content_type with
    | none => .error .attributeError
    | some ct =>
      match w.guessExt ct with
      | some ext => .ok (if ext = ".html" then "page" else "document", ext)
      | none => .ok ("", "")

/-- The `URLMetadata` dataclass of src/schemas.py, restricted to the
fields the pipeline under src/src writes (the constant-`None` fields
`extracted_keywords`, `extracted_entities`, `summary` and the
wall-clock `download_timestamp` are omitted). -/
structure URLMetadata where
  id : String
  source_url : Url
  final_url : Option String := none
  download_status : String := "success"
  error_message : Option String := none
  content_type_detected : Option String := none
  raw_file_path : Option String := none
  processed_file_path : Option String := none
  file_size_bytes : Option Nat := none
  document_page_count : Option Nat := none
  detected_language : Option String := none
  metadata_author : Option String := none
  metadata_creation_date : Option String := none
deriving DecidableEq, Repr

/-- The state shared across iterations of `download_files`: the two
downloader instances created once at the top of the function, the
robots cache and the accumulated effects. -/
structure DownloadPhaseState where
  doc : DownloaderState
  page : DownloaderState
  cache : RobotsCache
  effects : List Effect

def initDownloadPhase : DownloadPhaseState :=
  { doc := ContentDownloader.init DOCUMENT_RAW_FOLDER
    page := ContentDownloader.init PAGE_RAW_FOLDER
    cache := []
    effects := [] }

/-- One iteration of the `for url in urls` loop of `download_files`. -/
def download_step (w : World) (ps : DownloadPhaseState) (r : URLMetadata) :
    Except PyError (URLMetadata × DownloadPhaseState) :=
  match get_content_type w r.source_url with
  | .error e => .error e
  | .ok (content_type, ext_type) =>
    if content_type = "document" ∨ content_type = "page" then
      let file_name := r.id ++ ext_type
      let dst := if content_type = "document" then ps.doc else ps.page
      match ContentDownloader.download w dst ps.cache r.source_url (some file_name) with
      | .error e => .error e
      | .ok res =>
        let r := { r with
          content_type_detected := some content_type
          final_url := some res.st.url
          download_status := res.st.download_status
          error_message := some res.st.error_message
          raw_file_path := some res.st.file_path
          file_size_bytes := some res.st.file_size_bytes }
        let ps :=
          if content_type = "document" then
            { ps with doc := res.st, cache := res.cache, effects := ps.effects ++ res.effects }
          else
            { ps with page := res.st, cache := res.cache, effects := ps.effects ++ res.effects }
        .ok (r, ps)
    else
      .ok ({ r with download_status := "failed_download" }, ps)

def download_files_go (w : World) :
    List URLMetadata → DownloadPhaseState →
    Except PyError (List URLMetadata × DownloadPhaseState)
  | [], ps => .ok ([], ps)
  | r :: rs, ps =>
    match download_step w ps r with
    | .error e => .error e
    | .ok (r', ps') =>
      match download_files_go w rs ps' with
      | .error e => .error e
      | .ok (rs', ps'') => .ok (r' :: rs', ps'')

/-- Models `download_files(urls)` from src/src/main.py. -/
def download_files (w : World) (urls : List URLMetadata) :
    Except PyError (List URLMetadata × DownloadPhaseState) :=
  download_files_go w urls initDownloadPhase

/-- The `self.metadata` dict of a handler; a missing key reads as
`none`, like `dict.get`. -/
structure Metadata where
  document_page_count : Option Nat := none
  author : Option String := none
  creation_date : Option String := none
  language : Option String := none
deriving DecidableEq, Repr

/-- The mutable instance fields of `ContentHandler`. -/
structure HandlerState where
  dest_folder : String
  download_status : String := "success"
  error_message : String := ""
  path : String := ""
  metadata : Metadata := {}
deriving DecidableEq, Repr

/-- Models `ContentHandler.__init__(dest_folder=...)`. -/
def ContentHandler.init (dest_folder : String) : HandlerState :=
  { dest_folder := dest_folder }

/-- Which `_handle` variant runs (selects the metadata dict shape). -/
inductive HandlerKind where
  | pdf
  | docx
  | xlsx
  | page
deriving DecidableEq, Repr

/-- The metadata dict each `_handle` variant builds from the parsed
document: PDF and DocX store page count, author, creation date and
language; XLSX stores author, creation date and language; PageHandler
stores only the language. -/
def buildMetadata (k : HandlerKind) (pageCount : Nat) (author creationDate : Option String)
    (language : String) : Metadata :=
  match k with
  | .pdf => { document_page_count := some pageCount, author := author,
              creation_date := creationDate, language := some language }
  | .docx => { document_page_count := some pageCount, author := author,
               creation_date := creationDate, language := some language }
  | .xlsx => { author := author, creation_date := creationDate, language := some language }
  | .page => { language := some language }

/-- The expression `file_path.split("/")[-1].split(".")[0] + ".txt"` — the destination
file name computed inside `ContentHandler.handle`. -/
def destFileName (file_path : String) : String :=
  ((pySplit '.' ((pySplit '/' file_path).getLastD "")).headD "") ++ ".txt"

/-- Models `ContentHandler.handle(file_path)` from src/src/handlers.py.
A parse error inside `_handle` is caught, setting
`download_status = "failed_processing"` and `error_message`;
`self.path` is assigned the destination path after the try/except on
every path, success or not.  On success the plain text is written to
the destination and `self.metadata` is replaced by the format-specific
dict. -/
def ContentHandler.handle (w : World) (k : HandlerKind) (h : HandlerState)
    (file_path : String) : HandlerState × List Effect :=
  let dest_file_path := h.dest_folder ++ destFileName file_path
  let (h, effs) :=
    match w.extract file_path with
    | .ok pageCount author creationDate language _text =>
      ({ h with metadata := buildMetadata k pageCount author creationDate language },
       [Effect.extractRead file_path, Effect.textWrite dest_file_path])
    | .err msg =>
      ({ h with download_status := "failed_processing", error_message := msg },
       [Effect.extractRead file_path])
  ({ h with path := dest_file_path }, effs)

/-- The state shared across iterations of `handle_files`: the four
handler instances created once at the top of the function, plus the
accumulated effects. -/
structure HandlePhaseState where
  pdf : HandlerState
  docx : HandlerState
  xlsx : HandlerState
  html : HandlerState
  effects : List Effect
deriving DecidableEq, Repr

def initHandlePhase : HandlePhaseState :=
  { pdf := ContentHandler.init DOCUMENT_PROCESSED_FOLDER
    docx := ContentHandler.init DOCUMENT_PROCESSED_FOLDER
    xlsx := ContentHandler.init DOCUMENT_PROCESSED_FOLDER
    html := ContentHandler.init PAGE_PROCESSED_FOLDER
    effects := [] }

/-- One iteration of the `for url in urls` loop of `handle_files`.
Only `download_status == "failed_download"` is skipped; any other
status (in particular `skipped_robots`) continues into extraction.
`url.raw_file_path.split(...)` on a record that never went through a
downloader would raise `AttributeError` on `None`. -/
def handle_step (w : World) (hs : HandlePhaseState) (r : URLMetadata) :
    Except PyError (URLMetadata × HandlePhaseState) :=
  if r.download_status = "failed_download" then .ok (r, hs)
  else
    match r.raw_file_path with
    | none => .error .attributeError
    | some raw =>
      let ext_type : String := (pySplit '.' ((pySplit '/' raw).getLastD "")).getLastD ""
      if ext_type = "pdf" ∨ ext_type = "docx" ∨ ext_type = "xlsx" ∨ ext_type = "html" then
        let (k, h) : HandlerKind × HandlerState :=
          if ext_type = "pdf" then (.pdf, hs.pdf)
          else if ext_type = "docx" then (.docx, hs.docx)
          else if ext_type = "xlsx" then (.xlsx, hs.xlsx)
          else (.page, hs.html)
        let (h', effs) := ContentHandler.handle w k h raw
        let r := { r with
          download_status := h'.download_status
          error_message := some h'.error_message
          processed_file_path := some h'.path
          detected_language := h'.metadata.language }
        let r :=
          if ext_type = "pdf" ∨ ext_type = "docx" then
            { r with
              document_page_count := h'.metadata.document_page_count
              metadata_author := h'.metadata.author
              metadata_creation_date := h'.metadata.creation_date }
          else if ext_type = "xlsx" then
            { r with
              metadata_author := h'.metadata.author
              metadata_creation_date := h'.metadata.creation_date }
          else r
        let hs :=
          if ext_type = "pdf" then { hs with pdf := h', effects := hs.effects ++ effs }
          else if ext_type = "docx" then { hs with docx := h', effects := hs.effects ++ effs }
          else if ext_type = "xlsx" then { hs with xlsx := h', effects := hs.effects ++ effs }
          else { hs with html := h', effects := hs.effects ++ effs }
        .ok (r, hs)
      else
        .ok ({ r with download_status := "failed_processing" }, hs)

def handle_files_go (w : World) :
    List URLMetadata → HandlePhaseState →
    Except PyError (List URLMetadata × HandlePhaseState)
  | [], hs => .ok ([], hs)
  | r :: rs, hs =>
    match handle_step w hs r with
    | .error e => .error e
    | .ok (r', hs') =>
      match handle_files_go w rs hs' with
      | .error e => .error e
      | .ok (rs', hs'') => .ok (r' :: rs', hs'')

/-- Models `handle_files(urls)` from src/src/main.py. -/
def handle_files (w : World) (urls : List URLMetadata) :
    Except PyError (List URLMetadata × HandlePhaseState) :=
  handle_files_go w urls initHandlePhase

/-- The whole run on already-normalized records:
`download_files(urls)` then `handle_files(urls)` (the `__main__`
block of src/src/main.py). -/
def run_pipeline (w : World) (urls : List URLMetadata) :
    Except PyError (List URLMetadata × HandlePhaseState) :=
  match download_files w urls with
  | .error e => .error e
  | .ok (rs, _) => handle_files w rs

/-! ### URL normalization (`clear_urls_of_garbage`)

The per-URL transformation of `clear_urls_of_garbage` in
src/src/main.py: `parse_qsl` the query, drop pairs whose key matches
the regex `(^utm_|clid$|^cache_|_debug$)` under `pattern.search`, and
`urlencode` the survivors back.  `urllib.parse.parse_qsl` and
`urllib.parse.urlencode` are translated from their CPython sources:
splitting on `&`, skipping empty fields, fields without `=` and fields
with an empty value (the `keep_blank_values=False` default), replacing
`+` by a space and percent-decoding both components; encoding keeps the
always-safe characters (letters, digits, `_.-~`), turns a space into
`+` and everything else into an uppercase `%XX` escape.  Percent
escapes are decoded bytewise (exact for ASCII escapes; CPython decodes
the byte sequence as UTF-8).  `urlparse`/`urlunparse` are modelled as
the identity between a URL string and its parsed components, so the
transformation acts on a `ParseResult`. -/

/-- Uppercase hex digit of a value below 16 (the `%02X` format of
CPython `quote`). -/
def hexDigitChar (n : Nat) : Char :=
  if n < 10 then Char.ofNat (48 + n) else Char.ofNat (55 + n)

/-- The `0-9 A-F a-f` test of the CPython `unquote` hex table. -/
def isHexDigitC (c : Char) : Bool :=
  (48 ≤ c.toNat && c.toNat ≤ 57) || (65 ≤ c.toNat && c.toNat ≤ 70) ||
    (97 ≤ c.toNat && c.toNat ≤ 102)

def hexVal (c : Char) : Nat :=
  if 48 ≤ c.toNat && c.toNat ≤ 57 then c.toNat - 48
  else if 65 ≤ c.toNat && c.toNat ≤ 70 then c.toNat - 55
  else if 97 ≤ c.toNat && c.toNat ≤ 102 then c.toNat - 87
  else 0

/-- The `_ALWAYS_SAFE` set of `urllib.parse`: ASCII letters, digits and
`_ . - ~`. -/
def isAlwaysSafe (c : Char) : Bool :=
  c.isAlpha || c.isDigit || c = '_' || c = '.' || c = '-' || c = '~'

/-- Encoding of one character under `quote_plus`. -/
def quoteChar (c : Char) : List Char :=
  if isAlwaysSafe c then [c]
  else if c = ' ' then ['+']
  else ['%', hexDigitChar (c.toNat / 16 % 16), hexDigitChar (c.toNat % 16)]

/-- Models `urllib.parse.quote_plus` with empty `safe`, as `urlencode` applies
it to keys and values. -/
def quotePlus (l : List Char) : List Char :=
  l.flatMap quoteChar

/-- The `.replace("+", " ")` step of `parse_qsl`. -/
def plusToSpace (c : Char) : Char :=
  if c = '+' then ' ' else c

/-- One segment between `%` signs, as the CPython `unquote` loop
treats it: decode the two leading hex digits into a byte, or keep the
`%` literally when the segment does not start with two hex digits. -/
def decodeSegment (seg : List Char) : List Char :=
  match seg with
  | h1 :: h2 :: rest =>
    if isHexDigitC h1 && isHexDigitC h2 then
      Char.ofNat (16 * hexVal h1 + hexVal h2) :: rest
    else '%' :: seg
  | _ => '%' :: seg

/-- Percent-decoding (`urllib.parse.unquote` on the ASCII fragment):
split on `%` and decode the head of every later segment. -/
def percentDecode (l : List Char) : List Char :=
  match splitOnCharL '%' l with
  | [] => []
  | first :: segs => first ++ segs.flatMap decodeSegment

/-- The composite `unquote(s.replace("+", " "))`, applied by `parse_qsl` to each
component. -/
def unquotePlus (l : List Char) : List Char :=
  percentDecode (l.map plusToSpace)

/-- Splitting a field at the first `=` (`name_value.split("=", 1)`);
`none` when the field has no `=`. -/
def splitFirstEq : List Char → Option (List Char × List Char)
  | [] => none
  | c :: rest =>
    if c = '=' then some ([], rest)
    else
      match splitFirstEq rest with
      | none => none
      | some (k, v) => some (c :: k, v)

/-- One field of the query string, processed the way the `parse_qsl`
loop processes it with the default `keep_blank_values=False`: empty
fields and fields without `=` are skipped, a field whose raw value is
empty is skipped, and both components are plus-replaced and
percent-decoded. -/
def qslPair (field : List Char) : Option (List Char × List Char) :=
  match splitFirstEq field with
  | none => none
  | some (k, v) => if v = [] then none else some (unquotePlus k, unquotePlus v)

/-- Models `urllib.parse.parse_qsl(qs)` with default arguments. -/
def parse_qsl (l : List Char) : List (List Char × List Char) :=
  (splitOnCharL '&' l).filterMap qslPair

/-- One `key=value` item of `urlencode`. -/
def encodePair (p : List Char × List Char) : List Char :=
  quotePlus p.1 ++ '=' :: quotePlus p.2

/-- Models `urllib.parse.urlencode(pairs)`: quote-plus each side and join the
items with `&`. -/
def urlencode : List (List Char × List Char) → List Char
  | [] => []
  | [p] => encodePair p
  | p :: ps => encodePair p ++ '&' :: urlencode ps

def leadsWith : List Char → List Char → Bool
  | [], _ => true
  | _ :: _, [] => false
  | p :: ps, c :: cs => p = c && leadsWith ps cs

/-- Plain ends-with test on character lists (helper). -/
def trailsWith (pat s : List Char) : Bool :=
  leadsWith pat.reverse s.reverse

/-- The test `re.search(pat + "$", s)` for a literal `pat`: without
`re.MULTILINE`, the `$` anchor matches at the end of the string and
also just before one newline at the end of the string, so the
alternative `clid$` matches both `"fooclid"` and `"fooclid\n"`. -/
def dollarMatches (pat s : List Char) : Bool :=
  trailsWith pat s || trailsWith (pat ++ ['\n']) s

/-- The regex test `re.compile(r"(^utm_|clid$|^cache_|_debug$)").search(key)` as a
predicate on the decoded key, case-sensitive: `^` (no `re.MULTILINE`)
matches only at the start of the string, so `^utm_` and `^cache_` are
leading-substring tests; `$` matches at the end of the string or just
before a trailing newline, so `clid$` and `_debug$` accept the bare
suffix and the suffix followed by one final newline. -/
def matchesTracking (k : List Char) : Bool :=
  leadsWith "utm_".data k || dollarMatches "clid".data k ||
    leadsWith "cache_".data k || dollarMatches "_debug".data k

/-- The filter of the list comprehension in `clear_urls_of_garbage`. -/
def keepPair (p : List Char × List Char) : Bool :=
  !matchesTracking p.1

/-- The query-string rewrite of `clear_urls_of_garbage`:
`urlencode([(k, v) for k, v in parse_qsl(q) if not pattern.search(k)])`. -/
def clearQuery (q : List Char) : List Char :=
  urlencode ((parse_qsl q).filter keepPair)

/-- Models `urllib.parse.ParseResult`: the six components of a parsed URL. -/
structure ParseResult where
  scheme : List Char
  netloc : List Char
  path : List Char
  params : List Char
  query : List Char
  fragment : List Char
deriving DecidableEq, Repr

/-- The per-URL body of `clear_urls_of_garbage`:
`urlunparse(urlparse(url)._replace(query=...))`, with
`urlparse`/`urlunparse` as the identity between the URL string and its
components. -/
def clear_urls_of_garbage (u : ParseResult) : ParseResult :=
  { u with query := clearQuery u.query }

/-! ### Lemmas about query-string encoding and decoding -/

/-- Whether a character list is pure ASCII (code points below 128) —
the hypothesis under which the Latin-1 reading of percent escapes in
the model coincides with CPython. -/
def asciiL : List Char → Bool
  | [] => true
  | c :: rest => Nat.blt c.toNat 128 && asciiL rest

theorem asciiL_mem {l : List Char} (h : asciiL l = true) : ∀ c ∈ l, c.toNat < 128 := by
  induction l with
  | nil => intro c hc; simp at hc
  | cons c0 rest ih =>
    intro c hc
    simp only [asciiL, Bool.and_eq_true, Nat.blt_eq] at h
    rcases List.mem_cons.mp hc with rfl | hc'
    · exact h.1
    · exact ih h.2 c hc'

theorem hexVal_hexDigitChar : ∀ n < 16, hexVal (hexDigitChar n) = n := by decide

theorem isHex_hexDigitChar : ∀ n < 16, isHexDigitC (hexDigitChar n) = true := by decide

theorem hexDigitChar_avoid :
    ∀ n < 16, hexDigitChar n ≠ '%' ∧ hexDigitChar n ≠ '+' ∧ hexDigitChar n ≠ '&' ∧
      hexDigitChar n ≠ '=' := by decide

theorem hexVal_lt (c : Char) : hexVal c < 16 := by
  unfold hexVal
  split_ifs <;> simp_all only [Bool.and_eq_true, decide_eq_true_eq] <;> omega

theorem splitOnCharL_ne_nil (sep : Char) : ∀ l : List Char, splitOnCharL sep l ≠ []
  | [] => by simp [splitOnCharL]
  | c :: rest => by
    simp only [splitOnCharL]
    split
    · simp
    · split <;> simp

theorem splitOnCharL_cons_sep (sep : Char) (l : List Char) :
    splitOnCharL sep (sep :: l) = [] :: splitOnCharL sep l := by
  simp [splitOnCharL]

theorem splitOnCharL_cons_ne (sep c : Char) (l : List Char) (h : ¬ c = sep)
    (x : List Char) (xs : List (List Char)) (hx : splitOnCharL sep l = x :: xs) :
    splitOnCharL sep (c :: l) = (c :: x) :: xs := by
  simp [splitOnCharL, if_neg h, hx]

theorem splitOnCharL_append_sep (sep : Char) (l r : List Char)
    (h : ∀ c ∈ l, ¬ c = sep) :
    splitOnCharL sep (l ++ sep :: r) = l :: splitOnCharL sep r := by
  induction l with
  | nil => simpa using splitOnCharL_cons_sep sep r
  | cons c l ih =>
    have hc : ¬ c = sep := h c (List.mem_cons_self c l)
    have ih' := ih fun d hd => h d (List.mem_cons_of_mem c hd)
    simpa using splitOnCharL_cons_ne sep c (l ++ sep :: r) hc l (splitOnCharL sep r) ih'

theorem splitOnCharL_no_sep (sep : Char) (l : List Char) (h : ∀ c ∈ l, ¬ c = sep) :
    splitOnCharL sep l = [l] := by
  induction l with
  | nil => simp [splitOnCharL]
  | cons c l ih =>
    have hc : ¬ c = sep := h c (List.mem_cons_self c l)
    have ih' := ih fun d hd => h d (List.mem_cons_of_mem c hd)
    simpa using splitOnCharL_cons_ne sep c l hc l [] ih'

theorem mem_splitOnCharL_subset (sep : Char) :
    ∀ (l : List Char), ∀ x ∈ splitOnCharL sep l, ∀ c ∈ x, c ∈ l := by
  intro l
  induction l with
  | nil =>
    intro x hx c hc
    simp only [splitOnCharL, List.mem_singleton] at hx
    subst hx
    simp at hc
  | cons c0 rest ih =>
    intro x hx c hc
    by_cases h0 : c0 = sep
    · subst h0
      rw [splitOnCharL_cons_sep] at hx
      rcases List.mem_cons.mp hx with rfl | hx'
      · simp at hc
      · exact List.mem_cons_of_mem _ (ih x hx' c hc)
    · rcases hsr : splitOnCharL sep rest with _ | ⟨y, ys⟩
      · exact absurd hsr (splitOnCharL_ne_nil sep rest)
      · rw [splitOnCharL_cons_ne sep c0 rest h0 y ys hsr] at hx
        rcases List.mem_cons.mp hx with rfl | hx'
        · rcases List.mem_cons.mp hc with rfl | hc'
          · exact List.mem_cons_self _ _
          · exact List.mem_cons_of_mem _ (ih y (by rw [hsr]; exact List.mem_cons_self y ys) c hc')
        · exact List.mem_cons_of_mem _
            (ih x (by rw [hsr]; exact List.mem_cons_of_mem y hx') c hc)

theorem quoteChar_ne_nil (c : Char) : quoteChar c ≠ [] := by
  unfold quoteChar
  split_ifs <;> simp

theorem mem_quoteChar_avoid (c d : Char) (hd : d ∈ quoteChar c) :
    ¬ d = '&' ∧ ¬ d = '=' := by
  unfold quoteChar at hd
  split_ifs at hd with h1 h2
  · simp only [List.mem_singleton] at hd
    subst hd
    constructor
    · intro hc; subst hc; exact absurd h1 (by decide)
    · intro hc; subst hc; exact absurd h1 (by decide)
  · simp only [List.mem_singleton] at hd
    subst hd
    exact ⟨by decide, by decide⟩
  · have hlt1 : c.toNat / 16 % 16 < 16 := Nat.mod_lt _ (by norm_num)
    have hlt2 : c.toNat % 16 < 16 := Nat.mod_lt _ (by norm_num)
    have a1 := hexDigitChar_avoid _ hlt1
    have a2 := hexDigitChar_avoid _ hlt2
    simp only [List.mem_cons, List.not_mem_nil, or_false] at hd
    rcases hd with rfl | rfl | rfl
    · exact ⟨by decide, by decide⟩
    · exact ⟨fun hc => a1.2.2.1 hc, fun hc => a1.2.2.2 hc⟩
    · exact ⟨fun hc => a2.2.2.1 hc, fun hc => a2.2.2.2 hc⟩

theorem mem_quotePlus_avoid (l : List Char) (d : Char) (hd : d ∈ quotePlus l) :
    ¬ d = '&' ∧ ¬ d = '=' := by
  unfold quotePlus at hd
  obtain ⟨c, _, hdc⟩ := List.mem_flatMap.mp hd
  exact mem_quoteChar_avoid c d hdc

theorem quotePlus_ne_nil (l : List Char) (h : l ≠ []) : quotePlus l ≠ [] := by
  cases l with
  | nil => exact absurd rfl h
  | cons c rest =>
    show quoteChar c ++ quotePlus rest ≠ []
    simp [quoteChar_ne_nil c]

theorem charOfNat_toNat (n : Nat) (h : n < 256) : (Char.ofNat n).toNat = n := by
  have hv : n.isValidChar := Or.inl (by omega)
  simp [Char.ofNat, hv, Char.toNat, Char.ofNatAux, UInt32.toNat, BitVec.toNat_ofNatLt]

theorem percentDecode_nil : percentDecode [] = [] := by
  simp [percentDecode, splitOnCharL]

theorem percentDecode_cons_ne (c : Char) (l : List Char) (h : ¬ c = '%') :
    percentDecode (c :: l) = c :: percentDecode l := by
  rcases hsp : splitOnCharL '%' l with _ | ⟨x, xs⟩
  · exact absurd hsp (splitOnCharL_ne_nil '%' l)
  · unfold percentDecode
    rw [splitOnCharL_cons_ne '%' c l h x xs hsp, hsp]
    simp

theorem percentDecode_hex (d1 d2 : Char) (t : List Char)
    (h1 : isHexDigitC d1 = true) (h2 : isHexDigitC d2 = true)
    (hne1 : ¬ d1 = '%') (hne2 : ¬ d2 = '%') :
    percentDecode ('%' :: d1 :: d2 :: t) =
      Char.ofNat (16 * hexVal d1 + hexVal d2) :: percentDecode t := by
  rcases hsp : splitOnCharL '%' t with _ | ⟨x, xs⟩
  · exact absurd hsp (splitOnCharL_ne_nil '%' t)
  · have hstep2 : splitOnCharL '%' (d2 :: t) = (d2 :: x) :: xs :=
      splitOnCharL_cons_ne '%' d2 t hne2 x xs hsp
    have hstep1 : splitOnCharL '%' (d1 :: d2 :: t) = (d1 :: d2 :: x) :: xs :=
      splitOnCharL_cons_ne '%' d1 (d2 :: t) hne1 (d2 :: x) xs hstep2
    unfold percentDecode
    rw [splitOnCharL_cons_sep, hstep1, hsp]
    simp [decodeSegment, h1, h2]

theorem percentDecode_quoteChar (c : Char) (hc : c.toNat < 256) (t : List Char) :
    percentDecode ((quoteChar c).map plusToSpace ++ t) = c :: percentDecode t := by
  by_cases hsafe : isAlwaysSafe c = true
  · have hplus : plusToSpace c = c := by
      unfold plusToSpace
      split_ifs with h
      · subst h; exact absurd hsafe (by decide)
      · rfl
    have hpct : ¬ c = '%' := by
      intro h; subst h; exact absurd hsafe (by decide)
    simp only [quoteChar, if_pos hsafe, List.map_cons, List.map_nil, hplus,
      List.cons_append, List.nil_append]
    exact percentDecode_cons_ne c t hpct
  · by_cases hsp : c = ' '
    · subst hsp
      have hq : quoteChar ' ' = ['+'] := by decide
      have hplus : plusToSpace '+' = ' ' := by decide
      simp only [hq, List.map_cons, List.map_nil, hplus, List.cons_append, List.nil_append]
      exact percentDecode_cons_ne ' ' t (by decide)
    · have hlt1 : c.toNat / 16 % 16 < 16 := Nat.mod_lt _ (by norm_num)
      have hlt2 : c.toNat % 16 < 16 := Nat.mod_lt _ (by norm_num)
      have a1 := hexDigitChar_avoid _ hlt1
      have a2 := hexDigitChar_avoid _ hlt2
      have p0 : plusToSpace '%' = '%' := by simp [plusToSpace]
      have p1 : plusToSpace (hexDigitChar (c.toNat / 16 % 16)) =
          hexDigitChar (c.toNat / 16 % 16) := by
        simp [plusToSpace, a1.2.1]
      have p2 : plusToSpace (hexDigitChar (c.toNat % 16)) =
          hexDigitChar (c.toNat % 16) := by
        simp [plusToSpace, a2.2.1]
      simp only [quoteChar, hsafe, hsp, if_false, List.map_cons, List.map_nil,
        List.cons_append, List.nil_append, p0, p1, p2, Bool.false_eq_true]
      rw [percentDecode_hex _ _ t (isHex_hexDigitChar _ hlt1) (isHex_hexDigitChar _ hlt2)
        a1.1 a2.1]
      congr 1
      rw [hexVal_hexDigitChar _ hlt1, hexVal_hexDigitChar _ hlt2]
      have hdiv : c.toNat / 16 % 16 = c.toNat / 16 := by
        apply Nat.mod_eq_of_lt
        omega
      rw [hdiv, Nat.div_add_mod]
      exact Char.ofNat_toNat c

theorem percentDecode_quotePlus_append (l : List Char) (hl : ∀ c ∈ l, c.toNat < 256)
    (t : List Char) :
    percentDecode ((quotePlus l).map plusToSpace ++ t) = l ++ percentDecode t := by
  induction l with
  | nil => simp [quotePlus]
  | cons c rest ih =>
    have hc : c.toNat < 256 := hl c (List.mem_cons_self c rest)
    have hrest : ∀ d ∈ rest, d.toNat < 256 := fun d hd => hl d (List.mem_cons_of_mem c hd)
    have hq : quotePlus (c :: rest) = quoteChar c ++ quotePlus rest := rfl
    rw [hq, List.map_append, List.append_assoc, percentDecode_quoteChar c hc, ih hrest]
    rfl

theorem unquotePlus_quotePlus (l : List Char) (hl : ∀ c ∈ l, c.toNat < 256) :
    unquotePlus (quotePlus l) = l := by
  have := percentDecode_quotePlus_append l hl []
  simpa [unquotePlus, percentDecode_nil] using this

theorem splitFirstEq_append (k v : List Char) (hk : ∀ c ∈ k, ¬ c = '=') :
    splitFirstEq (k ++ '=' :: v) = some (k, v) := by
  induction k with
  | nil => simp [splitFirstEq]
  | cons c rest ih =>
    have hc : ¬ c = '=' := hk c (List.mem_cons_self c rest)
    have ih' := ih fun d hd => hk d (List.mem_cons_of_mem c hd)
    simp [splitFirstEq, if_neg hc, ih']

theorem qslPair_encodePair (k v : List Char) (hv : v ≠ [])
    (hk : ∀ c ∈ k, c.toNat < 256) (hv2 : ∀ c ∈ v, c.toNat < 256) :
    qslPair (encodePair (k, v)) = some (k, v) := by
  have hkeq : ∀ c ∈ quotePlus k, ¬ c = '=' := fun c hc => (mem_quotePlus_avoid k c hc).2
  have hsplit : splitFirstEq (quotePlus k ++ '=' :: quotePlus v) =
      some (quotePlus k, quotePlus v) := splitFirstEq_append _ _ hkeq
  have hvne : quotePlus v ≠ [] := quotePlus_ne_nil v hv
  simp only [qslPair, encodePair, hsplit, if_neg hvne]
  rw [show unquotePlus (quotePlus k) = k from unquotePlus_quotePlus k hk,
    show unquotePlus (quotePlus v) = v from unquotePlus_quotePlus v hv2]

theorem mem_encodePair_no_amp (p : List Char × List Char) :
    ∀ c ∈ encodePair p, ¬ c = '&' := by
  intro c hc
  simp only [encodePair, List.mem_append, List.mem_cons] at hc
  rcases hc with hc | hc | hc
  · exact (mem_quotePlus_avoid _ c hc).1
  · subst hc; decide
  · exact (mem_quotePlus_avoid _ c hc).1

theorem qslPair_nil : qslPair [] = none := by
  simp [qslPair, splitFirstEq]

theorem parse_qsl_urlencode (ps : List (List Char × List Char))
    (h : ∀ p ∈ ps, p.2 ≠ [] ∧ (∀ c ∈ p.1, c.toNat < 256) ∧ (∀ c ∈ p.2, c.toNat < 256)) :
    parse_qsl (urlencode ps) = ps := by
  induction ps with
  | nil => simp [urlencode, parse_qsl, splitOnCharL, qslPair_nil]
  | cons p rest ih =>
    obtain ⟨hv, hk2, hv2⟩ := h p (List.mem_cons_self p rest)
    have hp : qslPair (encodePair p) = some p := by
      obtain ⟨k, v⟩ := p
      exact qslPair_encodePair k v hv hk2 hv2
    cases rest with
    | nil =>
      have hsp : splitOnCharL '&' (encodePair p) = [encodePair p] :=
        splitOnCharL_no_sep '&' (encodePair p) (mem_encodePair_no_amp p)
      simp [urlencode, parse_qsl, hsp, hp]
    | cons q rest2 =>
      have ih' := ih fun x hx => h x (List.mem_cons_of_mem p hx)
      have hsp : splitOnCharL '&' (encodePair p ++ '&' :: urlencode (q :: rest2)) =
          encodePair p :: splitOnCharL '&' (urlencode (q :: rest2)) :=
        splitOnCharL_append_sep '&' _ _ (mem_encodePair_no_amp p)
      show parse_qsl (encodePair p ++ '&' :: urlencode (q :: rest2)) = _
      unfold parse_qsl
      rw [hsp]
      rw [List.filterMap_cons]
      rw [hp]
      exact congrArg _ ih'

theorem decodeSegment_chars (seg : List Char) (hs : ∀ c ∈ seg, c.toNat < 256) :
    ∀ c ∈ decodeSegment seg, c.toNat < 256 := by
  intro c hc
  unfold decodeSegment at hc
  split at hc
  · rename_i h1 h2 rest
    split at hc
    · rcases List.mem_cons.mp hc with rfl | hc'
      · rename_i hhex
        have : 16 * hexVal h1 + hexVal h2 < 256 := by
          have v1 := hexVal_lt h1
          have v2 := hexVal_lt h2
          omega
        rw [charOfNat_toNat _ this]
        exact this
      · exact hs c (List.mem_cons_of_mem _ (List.mem_cons_of_mem _ hc'))
    · rcases List.mem_cons.mp hc with rfl | hc'
      · decide
      · exact hs c hc'
  · rcases List.mem_cons.mp hc with rfl | hc'
    · decide
    · exact hs c hc'

theorem percentDecode_chars (l : List Char) (hl : ∀ c ∈ l, c.toNat < 256) :
    ∀ c ∈ percentDecode l, c.toNat < 256 := by
  intro c hc
  unfold percentDecode at hc
  rcases hsp : splitOnCharL '%' l with _ | ⟨x, xs⟩
  · exact absurd hsp (splitOnCharL_ne_nil '%' l)
  · rw [hsp] at hc
    simp only [List.mem_append] at hc
    have hsub := mem_splitOnCharL_subset '%' l
    rcases hc with hc | hc
    · exact hl c (hsub x (by rw [hsp]; exact List.mem_cons_self x xs) c hc)
    · obtain ⟨seg, hseg, hcseg⟩ := List.mem_flatMap.mp hc
      have hsegsub : ∀ d ∈ seg, d.toNat < 256 := fun d hd =>
        hl d (hsub seg (by rw [hsp]; exact List.mem_cons_of_mem x hseg) d hd)
      exact decodeSegment_chars seg hsegsub c hcseg

theorem decodeSegment_ne_nil (seg : List Char) : decodeSegment seg ≠ [] := by
  unfold decodeSegment
  split
  · split <;> simp
  · simp

theorem percentDecode_ne_nil (l : List Char) (h : l ≠ []) : percentDecode l ≠ [] := by
  cases l with
  | nil => exact absurd rfl h
  | cons c rest =>
    by_cases hc : c = '%'
    · subst hc
      unfold percentDecode
      rw [splitOnCharL_cons_sep]
      rcases hsp : splitOnCharL '%' rest with _ | ⟨x, xs⟩
      · exact absurd hsp (splitOnCharL_ne_nil '%' rest)
      · simp [decodeSegment_ne_nil x]
    · rw [percentDecode_cons_ne c rest hc]
      simp

theorem unquotePlus_chars (l : List Char) (hl : ∀ c ∈ l, c.toNat < 256) :
    ∀ c ∈ unquotePlus l, c.toNat < 256 := by
  have hmap : ∀ c ∈ l.map plusToSpace, c.toNat < 256 := by
    intro c hc
    obtain ⟨d, hd, hdc⟩ := List.mem_map.mp hc
    subst hdc
    unfold plusToSpace
    split_ifs
    · decide
    · exact hl d hd
  exact percentDecode_chars _ hmap

theorem unquotePlus_ne_nil (l : List Char) (h : l ≠ []) : unquotePlus l ≠ [] := by
  unfold unquotePlus
  apply percentDecode_ne_nil
  simpa using h

theorem splitFirstEq_subset (f : List Char) :
    ∀ k v, splitFirstEq f = some (k, v) → (∀ c ∈ k, c ∈ f) ∧ (∀ c ∈ v, c ∈ f) := by
  induction f with
  | nil => intro k v h; simp [splitFirstEq] at h
  | cons c rest ih =>
    intro k v h
    unfold splitFirstEq at h
    split at h
    · simp only [Option.some.injEq, Prod.mk.injEq] at h
      obtain ⟨rfl, rfl⟩ := h
      constructor
      · intro d hd; simp at hd
      · intro d hd; exact List.mem_cons_of_mem c hd
    · split at h
      · simp at h
      · rename_i k0 v0 hrec
        simp only [Option.some.injEq, Prod.mk.injEq] at h
        obtain ⟨rfl, rfl⟩ := h
        obtain ⟨hk0, hv0⟩ := ih k0 v0 hrec
        constructor
        · intro d hd
          rcases List.mem_cons.mp hd with rfl | hd'
          · exact List.mem_cons_self _ _
          · exact List.mem_cons_of_mem c (hk0 d hd')
        · intro d hd
          exact List.mem_cons_of_mem c (hv0 d hd)

theorem parse_qsl_sound (l : List Char) (hl : ∀ c ∈ l, c.toNat < 256) :
    ∀ p ∈ parse_qsl l,
      p.2 ≠ [] ∧ (∀ c ∈ p.1, c.toNat < 256) ∧ (∀ c ∈ p.2, c.toNat < 256) := by
  intro p hp
  unfold parse_qsl at hp
  obtain ⟨field, hfield, hqsl⟩ := List.mem_filterMap.mp hp
  have hfieldsub : ∀ c ∈ field, c.toNat < 256 := fun c hc =>
    hl c (mem_splitOnCharL_subset '&' l field hfield c hc)
  unfold qslPair at hqsl
  rcases hse : splitFirstEq field with _ | ⟨k0, v0⟩
  · rw [hse] at hqsl; simp at hqsl
  · rw [hse] at hqsl
    dsimp only at hqsl
    by_cases hv0 : v0 = []
    · rw [if_pos hv0] at hqsl; simp at hqsl
    · rw [if_neg hv0] at hqsl
      simp only [Option.some.injEq] at hqsl
      subst hqsl
      obtain ⟨hk0sub, hv0sub⟩ := splitFirstEq_subset field k0 v0 hse
      have hk0c : ∀ c ∈ k0, c.toNat < 256 := fun c hc => hfieldsub c (hk0sub c hc)
      have hv0c : ∀ c ∈ v0, c.toNat < 256 := fun c hc => hfieldsub c (hv0sub c hc)
      exact ⟨unquotePlus_ne_nil v0 hv0, unquotePlus_chars k0 hk0c, unquotePlus_chars v0 hv0c⟩

theorem filter_keepPair_idem (l : List (List Char × List Char)) :
    (l.filter keepPair).filter keepPair = l.filter keepPair := by
  induction l with
  | nil => simp
  | cons p rest ih =>
    by_cases hp : keepPair p
    · simp [List.filter_cons, hp, ih]
    · simp [List.filter_cons, hp, ih]

theorem parse_qsl_clearQuery (q : List Char) (hq : ∀ c ∈ q, c.toNat < 256) :
    parse_qsl (clearQuery q) = (parse_qsl q).filter keepPair := by
  unfold clearQuery
  apply parse_qsl_urlencode
  intro p hp
  exact parse_qsl_sound q hq p (List.mem_of_mem_filter hp)

/-- The claim scenario URL
`https://example.com/report.pdf?utm_source=x&id=7`. -/
def c9exu : ParseResult :=
  ⟨"https".data, "example.com".data, "/report.pdf".data, [], "utm_source=x&id=7".data, []⟩

/-- A URL whose query holds a blank-valued non-tracking parameter:
`https://example.com/a?id=&x=1`. -/
def c9url : ParseResult :=
  ⟨"https".data, "example.com".data, "/a".data, [], "id=&x=1".data, []⟩

/-- A URL with both kept and stripped parameters, for the idempotence
witness. -/
def c10url : ParseResult :=
  ⟨"https".data, "example.com".data, "/report.pdf".data, [],
   "utm_source=x&id=7&cache_a=1".data, []⟩

/-- C9 counterexample: normalization does not preserve all non-tracking
query parameters.  On `https://example.com/a?id=&x=1` the key `id`
matches no tracking pattern, yet the normalized query is `x=1`: the
`parse_qsl` default `keep_blank_values=False` silently drops the
blank-valued pair before the tracking filter ever sees it. -/
theorem c9_counterexample :
    matchesTracking "id".data = false ∧
      (clear_urls_of_garbage c9url).query = "x=1".data ∧
      parse_qsl (clear_urls_of_garbage c9url).query = [("x".data, "1".data)] := by
  refine ⟨rfl, rfl, rfl⟩

/-- C9 amended: normalization keeps scheme, host, path, params and
fragment unchanged, and the parameters of the normalized query are
exactly the non-tracking parameters of the original query in their
original relative order — as parsed by `parse_qsl`, which additionally
drops empty fields, fields without `=` and blank-valued parameters
(`keep_blank_values=False`), and re-encodes the survivors. -/
theorem c9_filters_tracking_params (u : ParseResult) (h : asciiL u.query = true) :
    parse_qsl (clear_urls_of_garbage u).query = (parse_qsl u.query).filter keepPair ∧
      (clear_urls_of_garbage u).scheme = u.scheme ∧
      (clear_urls_of_garbage u).netloc = u.netloc ∧
      (clear_urls_of_garbage u).path = u.path ∧
      (clear_urls_of_garbage u).params = u.params ∧
      (clear_urls_of_garbage u).fragment = u.fragment := by
  have hq : ∀ c ∈ u.query, c.toNat < 256 := fun c hc =>
    Nat.lt_trans (asciiL_mem h c hc) (by norm_num)
  exact ⟨parse_qsl_clearQuery u.query hq, rfl, rfl, rfl, rfl, rfl⟩

theorem c9_witness :
    asciiL c9exu.query = true ∧
      (parse_qsl (clear_urls_of_garbage c9exu).query =
          (parse_qsl c9exu.query).filter keepPair ∧
        (clear_urls_of_garbage c9exu).scheme = c9exu.scheme ∧
        (clear_urls_of_garbage c9exu).netloc = c9exu.netloc ∧
        (clear_urls_of_garbage c9exu).path = c9exu.path ∧
        (clear_urls_of_garbage c9exu).params = c9exu.params ∧
        (clear_urls_of_garbage c9exu).fragment = c9exu.fragment) :=
  ⟨rfl, c9_filters_tracking_params c9exu rfl⟩

/-- C10: URL normalization is idempotent (stated for ASCII queries,
which is what URLs carry): applying the per-URL transformation of
`clear_urls_of_garbage` to an already-normalized URL returns it
unchanged. -/
theorem c10_normalization_idempotent (u : ParseResult) (h : asciiL u.query = true) :
    clear_urls_of_garbage (clear_urls_of_garbage u) = clear_urls_of_garbage u := by
  have hq : ∀ c ∈ u.query, c.toNat < 256 := fun c hc =>
    Nat.lt_trans (asciiL_mem h c hc) (by norm_num)
  have key : clearQuery (clearQuery u.query) = clearQuery u.query := by
    show urlencode ((parse_qsl (clearQuery u.query)).filter keepPair) = _
    rw [parse_qsl_clearQuery u.query hq, filter_keepPair_idem]
    rfl
  simp [clear_urls_of_garbage, key]

theorem c10_witness :
    asciiL c10url.query = true ∧
      clear_urls_of_garbage (clear_urls_of_garbage c10url) = clear_urls_of_garbage c10url :=
  ⟨rfl, c10_normalization_idempotent c10url rfl⟩

/-! ### Concrete worlds used to exercise the pipeline -/

/-- A robots.txt policy that allows every URL. -/
def allowParser : RobotsParser := ⟨fun _ _ => true⟩

/-- A robots.txt policy that disallows every URL. -/
def denyParser : RobotsParser := ⟨fun _ _ => false⟩

/-- The mimetypes tables restricted to the two media types the test
worlds use. -/
def testGuessExt (ct : String) : Option String :=
  if ct = "text/html" then some ".html"
  else if ct = "application/pdf" then some ".pdf"
  else none

/-- A page URL whose origin robots.txt disallows it but whose content
is perfectly fetchable: robots.txt denies, the GET succeeds with two
bytes, classification sees `text/html`, extraction succeeds. -/
def u1 : Url := ⟨"https", "blocked.example", "/index.html"⟩

def w12 : World :=
  { robots := fun _ => .ok denyParser
    content := fun _ => .ok "https://blocked.example/index.html" (some 2) [7, 7]
    probe := fun _ => .ok (some "text/html")
    guessType := fun _ => none
    guessExt := testGuessExt
    extract := fun _ => .ok 1 none none "en" "hello" }

def rec1 : URLMetadata := { id := "A", source_url := u1 }

/-- Two PDF URLs on one origin; the first GET raises (`"boom"`), the
second succeeds. -/
def u3a : Url := ⟨"https", "docs.example", "/a.pdf"⟩

def u3b : Url := ⟨"https", "docs.example", "/b.pdf"⟩

def w3 : World :=
  { robots := fun _ => .ok allowParser
    content := fun u =>
      if u = u3a then .err "boom"
      else .ok "https://docs.example/b.pdf" (some 3) [1, 2, 3]
    probe := fun _ => .ok (some "application/pdf")
    guessType := fun _ => none
    guessExt := testGuessExt
    extract := fun _ => .ok 4 (some "au") none "en" "text" }

def rec3a : URLMetadata := { id := "A", source_url := u3a }

def rec3b : URLMetadata := { id := "B", source_url := u3b }

/-- A world whose robots.txt is unreachable everywhere (every `read()`
raises `URLError`). -/
def w4 : World := { w3 with robots := fun _ => .err }

/-- One PDF URL that downloads fine but whose raw file is corrupt: the
parse raises with the given message. -/
def w5 (msg : String) : World :=
  { w3 with
    content := fun _ => .ok "https://docs.example/a.pdf" (some 3) [1, 2, 3]
    extract := fun _ => .err msg }

/-- A world where the HEAD probe raises a `RequestException` for every
URL, so classification fails. -/
def w6 : World := { w3 with probe := fun _ => .err }

/-- A world where the HEAD response has no `Content-Type` header and
the URL suffix is not in the mimetypes table. -/
def w7 : World := { w3 with probe := fun _ => .ok none, guessType := fun _ => none }

/-- A successful GET parameterised by final URL, `Content-Length`
header and body bytes. -/
def w8 (finalUrl : String) (contentLength : Option Nat) (content : List Nat) : World :=
  { w3 with content := fun _ => .ok finalUrl contentLength content }

/-- A fully successful world: allowed, fetchable PDF, clean parse. -/
def wOk : World :=
  { w3 with content := fun _ => .ok "https://docs.example/a.pdf" (some 3) [1, 2, 3] }

/-! ### Claim theorems -/

/-- C1: against the claim, `ContentDownloader.download` does not
short-circuit on a robots denial.  On the disallowed URL `u1` it sets
`download_status = "skipped_robots"` but then still performs the GET
and writes the body to disk: the source has no `return` in the
`if not robotparser.can_fetch(...)` branch, so execution falls through
to `self._download(...)`. -/
theorem c1_robots_denial_still_downloads :
    (ContentDownloader.download w12 (ContentDownloader.init PAGE_RAW_FOLDER) [] u1
        (some "A.html")).map
        (fun r => (r.st.download_status, r.effects)) =
      .ok ("skipped_robots",
        [.robotsFetch "https://blocked.example", .contentFetch u1,
         .fileWrite "raw_downloads/pages/A.html" [7, 7]]) := by
  rfl

/-- C2: against the claim, a Record whose fetch stage ended in
`skipped_robots` is not terminal for the Pipeline: `handle_files` only
skips `download_status == "failed_download"`, so the record from `u1`
(whose fetch stage yields `skipped_robots`) is handed to the
`PageHandler`, its raw file is read and processed, and its status is
even overwritten to `"success"`. -/
theorem c2_skipped_robots_still_extracted :
    (download_files w12 [rec1]).map (fun p => p.1.map URLMetadata.download_status) =
        .ok ["skipped_robots"] ∧
      (run_pipeline w12 [rec1]).map
          (fun p => (p.1.map URLMetadata.download_status, p.2.effects)) =
        .ok (["success"],
          [.extractRead "raw_downloads/pages/A.html",
           .textWrite "processed_data/pages/A.txt"]) := by
  exact ⟨rfl, rfl⟩

/-- C3: against the claim, Records are not independent.  In world `w3`
the Record for `u3a` fails its GET with `"boom"` while the GET for
`u3b` succeeds, yet the second Record is reported as
`failed_download` with error `"boom"`: both URLs classify as
`document`, share the single `RequestsDocumentDownloader` instance,
and `ContentDownloader.download` never resets `download_status` or
`error_message` on a successful call, so the first failure leaks into
the second report (its `final_url` even shows the successful GET). -/
theorem c3_stale_state_leaks_between_records :
    w3.content u3b = .ok "https://docs.example/b.pdf" (some 3) [1, 2, 3] ∧
      (download_files w3 [rec3a, rec3b]).map
          (fun p => p.1.map fun r => (r.download_status, r.error_message, r.final_url)) =
        .ok [("failed_download", some "boom", some ""),
             ("failed_download", some "boom", some "https://docs.example/b.pdf")] := by
  exact ⟨rfl, rfl⟩

/-- C4: against the claim (and the docstring of
src/src/robotparser.py), a failed robots.txt fetch is not reused from
the cache.  In world `w4` every `read()` raises `URLError`; the first
`can_fetch` stores `None` for the origin, but `dict.get` returns
`None` for both a missing key and a stored `None`, and the guard
the falsy-value guard re-enters the fetch branch, so the second query
for the same origin issues a second network fetch (third component
`true` twice). -/
theorem c4_failed_robots_fetch_refetches :
    (can_fetch w4 [] u3a "agent").2.2 = true ∧
      (can_fetch w4 (can_fetch w4 [] u3a "agent").2.1 u3a "agent").2.2 = true ∧
      rcGet (can_fetch w4 [] u3a "agent").2.1 "https://docs.example" = some none := by
  refine ⟨rfl, rfl, rfl⟩

/-- C7: against the claim, `get_content_type` is not total over probe
outcomes.  In world `w7` the HEAD probe succeeds with no
`Content-Type` header and `mimetypes.guess_type` has no answer for the
URL, so the source reaches `mimetypes.guess_extension(None)`, which
raises `AttributeError`; `download_files` does not catch it, so the
run crashes instead of marking the Record `failed_download`. -/
theorem c7_unresolvable_type_raises :
    get_content_type w7 u3a = .error .attributeError ∧
      download_files w7 [rec3a] = .error .attributeError := by
  constructor
  · rfl
  · rfl

/-- C5 counterexample: a successfully fetched but corrupt document
(world `w5 "corrupt"`) ends with status `failed_processing` and
`raw_file_path` set, but `processed_file_path` is not empty — it holds
the intended destination path, because `ContentHandler.handle` assigns
`self.path = dest_file_path` after the try/except on every path and
`handle_files` copies it into the record unconditionally. -/
theorem c5_counterexample :
    (run_pipeline (w5 "corrupt") [rec3a]).map
        (fun p => p.1.map fun r => (r.download_status, r.raw_file_path, r.processed_file_path)) =
      .ok [("failed_processing", some "raw_downloads/documents/A.pdf",
            some "processed_data/documents/A.txt")] ∧
    ¬ (run_pipeline (w5 "corrupt") [rec3a]).map
          (fun p => p.1.map URLMetadata.processed_file_path) =
        .ok [none] := by
  refine ⟨rfl, fun h => ?_⟩
  have h' :
      (run_pipeline (w5 "corrupt") [rec3a]).map
          (fun p => p.1.map URLMetadata.processed_file_path) =
        .ok [some "processed_data/documents/A.txt"] := rfl
  rw [h'] at h
  simp at h

/-- C5 amended: for every parse-error message, a Record whose raw file
was fetched but whose extraction fails ends with status
`failed_processing`, `raw_file_path` set and `processed_file_path` set
to the intended destination path (not empty), with the parse error as
its `error_message`. -/
theorem c5_processed_path_on_failed_processing (msg : String) :
    (run_pipeline (w5 msg) [rec3a]).map
        (fun p => p.1.map fun r =>
          (r.download_status, r.raw_file_path, r.processed_file_path, r.error_message)) =
      .ok [("failed_processing", some "raw_downloads/documents/A.pdf",
            some "processed_data/documents/A.txt", some msg)] := by
  rfl

/-- C6 counterexample: a classification failure (`w6`: the HEAD probe
raises for every URL) ends the Record at `failed_download` with
`error_message` still unset (`None`): `download_files` only assigns
the status in that branch, never a cause string. -/
theorem c6_counterexample :
    (run_pipeline w6 [rec3a]).map
        (fun p => p.1.map fun r => (r.download_status, r.error_message)) =
      .ok [("failed_download", none)] := by
  rfl

/-- C8 counterexample: a successful fetch whose response carries no
`Content-Length` header but a five-byte body.  The downloader reports
`file_size_bytes = 0` (the header default of
`request.headers.get("Content-Length", 0)`) while the bytes actually
written to the raw artifact number five, so the reported size is not
the byte size written. -/
theorem c8_counterexample :
    (ContentDownloader.download (w8 "https://fin.example/x.pdf" none [1, 2, 3, 4, 5])
          (ContentDownloader.init DOCUMENT_RAW_FOLDER) [] u3a (some "A.pdf")).map
        (fun r => (r.st.download_status, r.st.file_size_bytes, r.effects)) =
      .ok ("success", 0,
        [.robotsFetch "https://docs.example", .contentFetch u3a,
         .fileWrite "raw_downloads/documents/A.pdf" [1, 2, 3, 4, 5]]) ∧
    (0 : Nat) ≠ ([1, 2, 3, 4, 5] : List Nat).length := by
  exact ⟨rfl, by decide⟩

/-- The four values of the `download_status` Literal of
src/schemas.py. -/
def statusSet : List String :=
  ["success", "failed_download", "skipped_robots", "failed_processing"]

/-- The two values a handler instance can hold in `download_status`. -/
def handlerStatusOk (h : HandlerState) : Prop :=
  h.download_status = "success" ∨ h.download_status = "failed_processing"

/-- Invariant over the four handler instances of `handle_files`. -/
def HPinv (hs : HandlePhaseState) : Prop :=
  handlerStatusOk hs.pdf ∧ handlerStatusOk hs.docx ∧ handlerStatusOk hs.xlsx ∧
    handlerStatusOk hs.html

theorem handle_preserves_status (w : World) (k : HandlerKind) (h : HandlerState)
    (fp : String) (hh : handlerStatusOk h) :
    handlerStatusOk (ContentHandler.handle w k h fp).1 := by
  cases he : w.extract fp
  · simpa [ContentHandler.handle, he, handlerStatusOk] using hh
  · simp [ContentHandler.handle, he, handlerStatusOk]

theorem handle_step_status (w : World) (hs : HandlePhaseState) (r r' : URLMetadata)
    (hs' : HandlePhaseState) (hinv : HPinv hs)
    (h : handle_step w hs r = .ok (r', hs')) :
    r'.download_status ∈ statusSet ∧ HPinv hs' := by
  obtain ⟨hpdf, hdocx, hxlsx, hhtml⟩ := hinv
  by_cases hfd : r.download_status = "failed_download"
  · simp only [handle_step, if_pos hfd, Except.ok.injEq, Prod.mk.injEq] at h
    obtain ⟨rfl, rfl⟩ := h
    exact ⟨by simp [statusSet, hfd], hpdf, hdocx, hxlsx, hhtml⟩
  · cases hraw : r.raw_file_path with
    | none => simp [handle_step, if_neg hfd, hraw] at h
    | some raw =>
      simp only [handle_step, if_neg hfd, hraw] at h
      set ext_type := (pySplit '.' ((pySplit '/' raw).getLastD "")).getLastD "" with hext
      by_cases hin : ext_type = "pdf" ∨ ext_type = "docx" ∨ ext_type = "xlsx" ∨
          ext_type = "html"
      · rw [if_pos hin] at h
        by_cases h1 : ext_type = "pdf"
        · simp only [if_pos h1, Except.ok.injEq, Prod.mk.injEq] at h
          obtain ⟨rfl, rfl⟩ := h
          have hst := handle_preserves_status w .pdf hs.pdf raw hpdf
          constructor
          · rcases hst with hst | hst <;> simp only [statusSet] <;>
              split_ifs <;> simp_all [statusSet]
          · exact ⟨hst, hdocx, hxlsx, hhtml⟩
        · by_cases h2 : ext_type = "docx"
          · simp only [if_neg h1, if_pos h2, Except.ok.injEq, Prod.mk.injEq] at h
            obtain ⟨rfl, rfl⟩ := h
            have hst := handle_preserves_status w .docx hs.docx raw hdocx
            constructor
            · rcases hst with hst | hst <;> simp only [statusSet] <;>
                split_ifs <;> simp_all [statusSet]
            · exact ⟨hpdf, hst, hxlsx, hhtml⟩
          · by_cases h3 : ext_type = "xlsx"
            · simp only [if_neg h1, if_neg h2, if_pos h3, Except.ok.injEq,
                Prod.mk.injEq] at h
              obtain ⟨rfl, rfl⟩ := h
              have hst := handle_preserves_status w .xlsx hs.xlsx raw hxlsx
              constructor
              · rcases hst with hst | hst <;> simp only [statusSet] <;>
                  split_ifs <;> simp_all [statusSet]
              · exact ⟨hpdf, hdocx, hst, hhtml⟩
            · simp only [if_neg h1, if_neg h2, if_neg h3, Except.ok.injEq,
                Prod.mk.injEq] at h
              obtain ⟨rfl, rfl⟩ := h
              have hst := handle_preserves_status w .page hs.html raw hhtml
              constructor
              · rcases hst with hst | hst <;> simp only [statusSet] <;>
                  split_ifs <;> simp_all [statusSet]
              · exact ⟨hpdf, hdocx, hxlsx, hst⟩
      · rw [if_neg hin] at h
        simp only [Except.ok.injEq, Prod.mk.injEq] at h
        obtain ⟨rfl, rfl⟩ := h
        exact ⟨by simp [statusSet], hpdf, hdocx, hxlsx, hhtml⟩

theorem handle_go_status (w : World) :
    ∀ (urls : List URLMetadata) (hs : HandlePhaseState) (rs' : List URLMetadata)
      (hs'' : HandlePhaseState), HPinv hs →
      handle_files_go w urls hs = .ok (rs', hs'') →
      ∀ r ∈ rs', r.download_status ∈ statusSet := by
  intro urls
  induction urls with
  | nil =>
    intro hs rs' hs'' _ h r hr
    simp only [handle_files_go, Except.ok.injEq, Prod.mk.injEq] at h
    obtain ⟨rfl, rfl⟩ := h
    simp at hr
  | cons r0 rest ih =>
    intro hs rs' hs'' hinv h r hr
    simp only [handle_files_go] at h
    split at h
    · simp at h
    · rename_i r0' hs' hstep
      split at h
      · simp at h
      · rename_i rs2 hs2 hrest
        simp only [Except.ok.injEq, Prod.mk.injEq] at h
        obtain ⟨rfl, rfl⟩ := h
        obtain ⟨hst, hinv'⟩ := handle_step_status w hs r0 r0' hs' hinv hstep
        rcases List.mem_cons.mp hr with rfl | hr'
        · exact hst
        · exact ih hs' rs2 hs2 hinv' hrest r hr'

theorem initHPinv : HPinv initHandlePhase := by
  refine ⟨Or.inl rfl, Or.inl rfl, Or.inl rfl, Or.inl rfl⟩

/-- C6 amended: at the end of a run every Record carries one of the
four statuses of the `URLMetadata` Literal — but `error_message`
non-emptiness is not equivalent to a failure status (see the
counterexample: a classification failure sets `failed_download` and
leaves `error_message` unset). -/
theorem c6_status_membership (w : World) (urls rs : List URLMetadata)
    (ps : DownloadPhaseState) (rs' : List URLMetadata) (hs : HandlePhaseState)
    (_hdl : download_files w urls = .ok (rs, ps))
    (hh : handle_files w rs = .ok (rs', hs)) :
    ∀ r ∈ rs', r.download_status ∈ statusSet := by
  exact handle_go_status w rs initHandlePhase rs' hs initHPinv hh

def c6rs : List URLMetadata :=
  match download_files wOk [rec3a] with
  | .ok p => p.1
  | .error _ => []

def c6ps : DownloadPhaseState :=
  match download_files wOk [rec3a] with
  | .ok p => p.2
  | .error _ => initDownloadPhase

def c6rs' : List URLMetadata :=
  match handle_files wOk c6rs with
  | .ok p => p.1
  | .error _ => []

def c6hs : HandlePhaseState :=
  match handle_files wOk c6rs with
  | .ok p => p.2
  | .error _ => initHandlePhase

def c6rec : URLMetadata := c6rs'.headD rec3a

theorem c6_witness : c6rec.download_status ∈ statusSet :=
  c6_status_membership wOk [rec3a] c6rs c6ps c6rs' c6hs rfl rfl c6rec (by decide)

/-- C8 amended: for every successful fetch, the downloader reports the
effective post-redirect URL as `final_url` and reports the value of
the `Content-Length` response header (`0` when absent) as
`file_size_bytes` — which is the header value, not necessarily the
number of bytes written; the body bytes are what lands in the raw
artifact. -/
theorem c8_reports_content_length_header (finalUrl : String) (contentLength : Option Nat)
    (content : List Nat) :
    (ContentDownloader.download (w8 finalUrl contentLength content)
          (ContentDownloader.init DOCUMENT_RAW_FOLDER) [] u3a (some "A.pdf")).map
        (fun r => (r.st.url, r.st.file_size_bytes, r.st.download_status, r.effects)) =
      .ok (finalUrl, contentLength.getD 0, "success",
        [.robotsFetch "https://docs.example", .contentFetch u3a,
         .fileWrite "raw_downloads/documents/A.pdf" content]) := by
  rfl

end SberPipeline
